import Mathlib

/-!
Verification of the process-coordination core of the simgo discrete-event
simulation engine (`process.go`).

The core under verification is `Process.Wait` together with the status /
handler delegation methods.  The `Event` (Occurrence) collaborator and the
driving simulation are external to the core (the spec gives only their
contract), so they are modelled from the spec.

`Wait` has a single suspension point (the yield at line 74 followed by the
`select` at lines 76-86), so it is embedded as two functions:
`Process.Wait` covers everything up to and including the suspension
decision (lines 44-74), and `Process.WaitResume` covers the `select`
(lines 76-86), taking as input the signal the suspended process receives.
`runtime.Goexit()` (abrupt, non-returning termination) is modelled by the
distinguished outcome constructors `exit` / `abortExit` / `killExit`.

Operations on a process's unbuffered handoff channel (`proc.sync`) are
reified as `SyncOp` values so that token counting and rendezvous blocking
can be stated; `syncRun` gives the synchronous (unbuffered) pairing
semantics of two op sequences against each other.
-/

namespace Simgo

/-- Modelled from the spec: the settlement state of an Occurrence.  The
spec's Occurrence contract (missing `event.go`): exactly one of three
states over its lifetime, pending then at most one one-way transition to
processed or aborted. -/
inductive EvState
  | pending
  | processed
  | aborted
deriving DecidableEq, Repr

/-- A handler stored on an event.  `onProcessed pid` and `onAbort pid` are
the two closures `Wait` registers (process.go lines 56-62 and 65-71),
identified by the id of the process whose `sync` channel they talk to;
`ext tag` is an arbitrary caller-supplied callback registered through the
delegation methods. -/
inductive Handler
  | onProcessed (pid : ℕ)
  | onAbort (pid : ℕ)
  | ext (tag : ℕ)
deriving DecidableEq, Repr

/-- Modelled from the spec: an Occurrence ("a one-shot future event"),
holding its settlement state, its ordered list of on-processed handlers
and its ordered list of on-abort handlers (missing `event.go`). -/
structure Event where
  state : EvState
  handlers : List Handler
  abortHandlers : List Handler
deriving DecidableEq, Repr

/-- Modelled from the spec: `processed() -> bool`, a pure read of the
occurrence state. -/
def Event.Processed (e : Event) : Bool :=
  decide (e.state = EvState.processed)

/-- Modelled from the spec: `aborted() -> bool`, a pure read of the
occurrence state. -/
def Event.Aborted (e : Event) : Bool :=
  decide (e.state = EvState.aborted)

/-- Modelled from the spec: an occurrence is pending before it settles. -/
def Event.Pending (e : Event) : Bool :=
  decide (e.state = EvState.pending)

/-- Modelled from the spec: "an occurrence is triggered once it has
settled, regardless of outcome". -/
def Event.Triggered (e : Event) : Bool :=
  e.Processed || e.Aborted

/-- Modelled from the spec: `addHandler(callback)` appends to the ordered
list of on-processed handlers. -/
def Event.AddHandler (e : Event) (h : Handler) : Event :=
  Event.mk e.state (e.handlers ++ [h]) e.abortHandlers

/-- Modelled from the spec: `addAbortHandler(callback)` appends to the
ordered list of on-abort handlers. -/
def Event.AddAbortHandler (e : Event) (h : Handler) : Event :=
  Event.mk e.state e.handlers (e.abortHandlers ++ [h])

/-- Modelled from the spec: aborting an occurrence.  The transition fires
only from pending (one-way, at most once); it settles the state to aborted
and hands back the on-abort handlers, each to be invoked exactly once by
the settling context (the handler lists are consumed).  On a non-pending
occurrence it is a no-op firing nothing. -/
def Event.Abort (e : Event) : Event × List Handler :=
  if e.state = EvState.pending then
    (Event.mk EvState.aborted [] [], e.abortHandlers)
  else
    (e, [])

/-- Modelled from the spec: the driver settles a pending occurrence as
processed, handing back the on-processed handlers in registration order,
each to be invoked exactly once by the settling context.  On a non-pending
occurrence it is a no-op firing nothing. -/
def Event.settleProcessed (e : Event) : Event × List Handler :=
  if e.state = EvState.pending then
    (Event.mk EvState.processed [] [], e.handlers)
  else
    (e, [])

/-- An operation on an unbuffered handoff channel: `send pid b` sends the
boolean token `b` on the channel of process `pid`; `recv pid` receives
from it. -/
inductive SyncOp
  | send (pid : ℕ) (b : Bool)
  | recv (pid : ℕ)
deriving DecidableEq, Repr

/-- The channel operations a stored handler performs when invoked.  The
on-processed closure (process.go lines 56-62) sends the resume token
`true` on the owning process's sync channel, then blocks receiving the
next token; the on-abort closure (lines 65-71) does the same with the
abort token `false`.  External callbacks touch no sync channel. -/
def Handler.ops : Handler → List SyncOp
  | Handler.onProcessed pid => [SyncOp.send pid true, SyncOp.recv pid]
  | Handler.onAbort pid => [SyncOp.send pid false, SyncOp.recv pid]
  | Handler.ext _ => []

/-- Synchronous execution of two sequences of unbuffered-channel
operations against each other, as Go pairs them: a send completes only by
rendezvous with a receive on the same channel, and conversely.  Returns
`true` exactly when both sides run to completion; any unpaired operation
blocks forever. -/
def syncRun : List SyncOp → List SyncOp → Bool
  | [], [] => true
  | SyncOp.send p _ :: xs, SyncOp.recv q :: ys => decide (p = q) && syncRun xs ys
  | SyncOp.recv p :: xs, SyncOp.send q _ :: ys => decide (p = q) && syncRun xs ys
  | _, _ => false

/-- A process: its id (identifying its handoff channel) and its own
completion event `ev` (process.go lines 24-36; the channel itself is
reified through `SyncOp`). -/
structure Process where
  pid : ℕ
  ev : Event
deriving DecidableEq, Repr

/-- Outcome of the first half of `Wait` (process.go lines 43-74), carrying
the resulting states of the awaited event and of the process's own
completion event.  `ret`: returned immediately to the caller (line 46).
`exit`: aborted the completion event and terminated via `runtime.Goexit()`
(lines 51-52), `fired` being the abort handlers the `Abort` call hands to
its invoker.  `suspended`: registered the two handlers, yielded on the
sync channel and blocked in the `select`. -/
inductive WaitOutcome1
  | ret (ev : Event) (procEv : Event)
  | exit (ev : Event) (procEv : Event) (fired : List Handler)
  | suspended (ev : Event) (procEv : Event)
deriving DecidableEq, Repr

/-- The signal a process suspended in `Wait` eventually receives: a
boolean token from its sync channel (line 77), or the simulation-wide
shutdown signal (line 84). -/
inductive WakeSignal
  | token (processed : Bool)
  | shutdown
deriving DecidableEq, Repr

/-- Outcome of the `select` half of `Wait` (process.go lines 76-86).
`ret`: resume token received, `Wait` returns normally (line 77 with
`processed = true`).  `abortExit`: abort token received, the process
aborts its own completion event and terminates via `runtime.Goexit()`
(lines 78-81).  `killExit`: shutdown received, the process terminates at
once, touching nothing (lines 84-85). -/
inductive WaitOutcome2
  | ret (procEv : Event)
  | abortExit (procEv : Event) (fired : List Handler)
  | killExit (procEv : Event)
deriving DecidableEq, Repr

/-- First half of `Process.Wait` (process.go lines 43-74): fast path when
the awaitable is already processed; abort-and-exit when it is already
aborted; otherwise register the on-processed and on-abort closures on the
awaitable and suspend (the yield at line 74 and the `select` are the
suspension, resolved by `Process.WaitResume`). -/
def Process.Wait (proc : Process) (ev : Event) : WaitOutcome1 :=
  if ev.Processed then
    WaitOutcome1.ret ev proc.ev
  else if ev.Aborted then
    WaitOutcome1.exit ev (proc.ev.Abort).1 (proc.ev.Abort).2
  else
    WaitOutcome1.suspended
      ((ev.AddHandler (Handler.onProcessed proc.pid)).AddAbortHandler
        (Handler.onAbort proc.pid))
      proc.ev

/-- Second half of `Process.Wait`, the `select` (process.go lines 76-86),
applied to the signal the suspended process receives. -/
def Process.WaitResume (proc : Process) (sig : WakeSignal) : WaitOutcome2 :=
  match sig with
  | WakeSignal.token processed =>
      if processed then
        WaitOutcome2.ret proc.ev
      else
        WaitOutcome2.abortExit (proc.ev.Abort).1 (proc.ev.Abort).2
  | WakeSignal.shutdown => WaitOutcome2.killExit proc.ev

/-- `Process.Pending` (process.go lines 90-92): delegates to the
completion event. -/
def Process.Pending (proc : Process) : Bool :=
  proc.ev.Pending

/-- `Process.Triggered` (process.go lines 95-97): delegates to the
completion event. -/
def Process.Triggered (proc : Process) : Bool :=
  proc.ev.Triggered

/-- `Process.Processed` (process.go lines 100-102): delegates to the
completion event. -/
def Process.Processed (proc : Process) : Bool :=
  proc.ev.Processed

/-- `Process.Aborted` (process.go lines 105-107): delegates to the
completion event. -/
def Process.Aborted (proc : Process) : Bool :=
  proc.ev.Aborted

/-- `Process.AddHandler` (process.go lines 110-112): delegates to the
completion event. -/
def Process.AddHandler (proc : Process) (h : Handler) : Process :=
  Process.mk proc.pid (proc.ev.AddHandler h)

/-- `Process.AddAbortHandler` (process.go lines 115-117): delegates to the
completion event. -/
def Process.AddAbortHandler (proc : Process) (h : Handler) : Process :=
  Process.mk proc.pid (proc.ev.AddAbortHandler h)

/-- A freshly created event: pending with no handlers. -/
def freshEvent : Event :=
  Event.mk EvState.pending [] []

/-- Claim C4: when the awaitable is already processed, `Wait` takes the
fast path (process.go lines 44-47): it returns immediately with the
awaitable and the process's completion event both exactly unchanged — no
suspension, no handoff, no handler registered, no side effect. -/
theorem wait_already_processed_fast_path (proc : Process) (ev : Event)
    (h : ev.state = EvState.processed) :
    proc.Wait ev = WaitOutcome1.ret ev proc.ev := by
  simp [Process.Wait, Event.Processed, h]

theorem wait_already_processed_fast_path_witness :
    (Event.mk EvState.processed [] []).state = EvState.processed ∧
    (Process.mk 0 freshEvent).Wait (Event.mk EvState.processed [] []) =
      WaitOutcome1.ret (Event.mk EvState.processed [] []) freshEvent :=
  ⟨by decide,
    wait_already_processed_fast_path (Process.mk 0 freshEvent)
      (Event.mk EvState.processed [] []) (by decide)⟩

/-- Claim C2: when the awaitable is already aborted, `Wait` (process.go
lines 49-53) first aborts the calling process's own completion event and
then terminates the calling execution context via `runtime.Goexit()`,
modelled by the non-returning `exit` outcome: no `ret` outcome is
produced, so no statement after the `Wait` call runs and no error value
is returned, and the completion event is settled aborted (not
processed). -/
theorem wait_already_aborted_terminates (proc : Process) (ev : Event)
    (hev : ev.state = EvState.aborted) (hpe : proc.ev.state = EvState.pending) :
    proc.Wait ev =
      WaitOutcome1.exit ev (Event.mk EvState.aborted [] []) proc.ev.abortHandlers ∧
    (Event.mk EvState.aborted [] []).Aborted = true ∧
    (Event.mk EvState.aborted [] []).Processed = false := by
  refine ⟨?_, by decide, by decide⟩
  simp [Process.Wait, Event.Processed, Event.Aborted, Event.Abort, hev, hpe]

theorem wait_already_aborted_terminates_witness :
    (Event.mk EvState.aborted [] []).state = EvState.aborted ∧
    (Process.mk 0 freshEvent).ev.state = EvState.pending ∧
    ((Process.mk 0 freshEvent).Wait (Event.mk EvState.aborted [] []) =
        WaitOutcome1.exit (Event.mk EvState.aborted [] [])
          (Event.mk EvState.aborted [] [])
          (Process.mk 0 freshEvent).ev.abortHandlers ∧
      (Event.mk EvState.aborted [] []).Aborted = true ∧
      (Event.mk EvState.aborted [] []).Processed = false) :=
  ⟨by decide, by decide,
    wait_already_aborted_terminates (Process.mk 0 freshEvent)
      (Event.mk EvState.aborted [] []) (by decide) (by decide)⟩

/-- Claim C3: a process suspended in `Wait` on a pending awaitable has
registered the on-abort closure on it; when the awaitable is settled
aborted, that closure is among the fired handlers and sends the abort
token `false` on the process's sync channel; the suspended `select`
receiving `false` (process.go lines 78-81) aborts the process's own
completion event — which then reports aborted and not processed — and
terminates via `runtime.Goexit()`, modelled by the non-returning
`abortExit` outcome, so `Wait` never returns and no code after it runs. -/
theorem wait_abort_while_suspended (proc : Process) (ev : Event)
    (hev : ev.state = EvState.pending) (hpe : proc.ev.state = EvState.pending) :
    proc.Wait ev =
      WaitOutcome1.suspended
        (Event.mk EvState.pending (ev.handlers ++ [Handler.onProcessed proc.pid])
          (ev.abortHandlers ++ [Handler.onAbort proc.pid]))
        proc.ev ∧
    ((Event.mk EvState.pending (ev.handlers ++ [Handler.onProcessed proc.pid])
        (ev.abortHandlers ++ [Handler.onAbort proc.pid])).Abort).2 =
      ev.abortHandlers ++ [Handler.onAbort proc.pid] ∧
    Handler.ops (Handler.onAbort proc.pid) =
      [SyncOp.send proc.pid false, SyncOp.recv proc.pid] ∧
    proc.WaitResume (WakeSignal.token false) =
      WaitOutcome2.abortExit (Event.mk EvState.aborted [] []) proc.ev.abortHandlers ∧
    (Event.mk EvState.aborted [] []).Aborted = true ∧
    (Event.mk EvState.aborted [] []).Processed = false := by
  refine ⟨?_, ?_, rfl, ?_, by decide, by decide⟩
  · simp [Process.Wait, Event.Processed, Event.Aborted, Event.AddHandler,
      Event.AddAbortHandler, hev]
  · simp [Event.Abort]
  · simp [Process.WaitResume, Event.Abort, hpe]

theorem wait_abort_while_suspended_witness :
    freshEvent.state = EvState.pending ∧
    (Process.mk 0 freshEvent).ev.state = EvState.pending ∧
    ((Process.mk 0 freshEvent).Wait freshEvent =
        WaitOutcome1.suspended
          (Event.mk EvState.pending (freshEvent.handlers ++ [Handler.onProcessed 0])
            (freshEvent.abortHandlers ++ [Handler.onAbort 0]))
          freshEvent ∧
      ((Event.mk EvState.pending (freshEvent.handlers ++ [Handler.onProcessed 0])
          (freshEvent.abortHandlers ++ [Handler.onAbort 0])).Abort).2 =
        freshEvent.abortHandlers ++ [Handler.onAbort 0] ∧
      Handler.ops (Handler.onAbort 0) = [SyncOp.send 0 false, SyncOp.recv 0] ∧
      (Process.mk 0 freshEvent).WaitResume (WakeSignal.token false) =
        WaitOutcome2.abortExit (Event.mk EvState.aborted [] [])
          freshEvent.abortHandlers ∧
      (Event.mk EvState.aborted [] []).Aborted = true ∧
      (Event.mk EvState.aborted [] []).Processed = false) :=
  ⟨by decide, by decide,
    wait_abort_while_suspended (Process.mk 0 freshEvent) freshEvent
      (by decide) (by decide)⟩

/-- Claim C6: if the shutdown signal is received while a process is
suspended in `Wait` on a still-pending awaitable, the `select` takes the
shutdown branch (process.go lines 84-85) and the process terminates via
`runtime.Goexit()` at once: the `killExit` outcome carries the completion
event exactly unchanged (neither aborted nor processed), and the awaited
event's settlement state is exactly what it was when the process
suspended — still pending, untouched. -/
theorem wait_shutdown_hard_kill (proc : Process) (ev : Event)
    (hev : ev.state = EvState.pending) :
    proc.Wait ev =
      WaitOutcome1.suspended
        (Event.mk EvState.pending (ev.handlers ++ [Handler.onProcessed proc.pid])
          (ev.abortHandlers ++ [Handler.onAbort proc.pid]))
        proc.ev ∧
    (Event.mk EvState.pending (ev.handlers ++ [Handler.onProcessed proc.pid])
        (ev.abortHandlers ++ [Handler.onAbort proc.pid])).state = ev.state ∧
    proc.WaitResume WakeSignal.shutdown = WaitOutcome2.killExit proc.ev := by
  refine ⟨?_, by simp [hev], rfl⟩
  simp [Process.Wait, Event.Processed, Event.Aborted, Event.AddHandler,
    Event.AddAbortHandler, hev]

theorem wait_shutdown_hard_kill_witness :
    freshEvent.state = EvState.pending ∧
    ((Process.mk 0 freshEvent).Wait freshEvent =
        WaitOutcome1.suspended
          (Event.mk EvState.pending (freshEvent.handlers ++ [Handler.onProcessed 0])
            (freshEvent.abortHandlers ++ [Handler.onAbort 0]))
          freshEvent ∧
      (Event.mk EvState.pending (freshEvent.handlers ++ [Handler.onProcessed 0])
          (freshEvent.abortHandlers ++ [Handler.onAbort 0])).state =
        freshEvent.state ∧
      (Process.mk 0 freshEvent).WaitResume WakeSignal.shutdown =
        WaitOutcome2.killExit freshEvent) :=
  ⟨by decide,
    wait_shutdown_hard_kill (Process.mk 0 freshEvent) freshEvent (by decide)⟩

/-- Claim C9: the four status queries are pure reads of the process's own
completion event's current state (definitionally: each equals the
corresponding decidable test of `proc.ev.state`, taking no other input
and producing no new state), `Triggered` covering both settled outcomes;
and the two registration methods return the process with the given
callback appended to the corresponding handler list of that same
completion event, everything else unchanged. -/
theorem process_delegation_pure :
    (∀ proc : Process,
      proc.Pending = decide (proc.ev.state = EvState.pending) ∧
      proc.Processed = decide (proc.ev.state = EvState.processed) ∧
      proc.Aborted = decide (proc.ev.state = EvState.aborted) ∧
      proc.Triggered = (proc.ev.Processed || proc.ev.Aborted)) ∧
    (∀ (proc : Process) (h : Handler),
      proc.AddHandler h =
        Process.mk proc.pid
          (Event.mk proc.ev.state (proc.ev.handlers ++ [h])
            proc.ev.abortHandlers) ∧
      proc.AddAbortHandler h =
        Process.mk proc.pid
          (Event.mk proc.ev.state proc.ev.handlers
            (proc.ev.abortHandlers ++ [h]))) := by
  exact ⟨fun proc => ⟨rfl, rfl, rfl, rfl⟩, fun proc h => ⟨rfl, rfl⟩⟩

/-- Claim C10: on every control path of `Wait` the awaitable's settlement
state is never changed — the fast paths return it exactly as given, and
the suspension path only appends the two handlers, keeping the state —
and the only event `Wait` ever settles is the calling process's own
completion event, always and only through `Event.Abort`, which can settle
a pending event to aborted and nothing else. -/
theorem wait_frame_effects (proc : Process) (ev : Event) :
    (match proc.Wait ev with
      | WaitOutcome1.ret e pe => e = ev ∧ pe = proc.ev
      | WaitOutcome1.exit e pe fired =>
          e = ev ∧ pe = (proc.ev.Abort).1 ∧ fired = (proc.ev.Abort).2
      | WaitOutcome1.suspended e pe =>
          e.state = ev.state ∧
          e.handlers = ev.handlers ++ [Handler.onProcessed proc.pid] ∧
          e.abortHandlers = ev.abortHandlers ++ [Handler.onAbort proc.pid] ∧
          pe = proc.ev) ∧
    (∀ sig : WakeSignal,
      match proc.WaitResume sig with
      | WaitOutcome2.ret pe => pe = proc.ev
      | WaitOutcome2.abortExit pe fired =>
          pe = (proc.ev.Abort).1 ∧ fired = (proc.ev.Abort).2
      | WaitOutcome2.killExit pe => pe = proc.ev) ∧
    (∀ e : Event,
      ((e.Abort).1).state =
        if e.state = EvState.pending then EvState.aborted else e.state) := by
  refine ⟨?_, ?_, ?_⟩
  · by_cases h1 : ev.Processed
    · simp [Process.Wait, h1]
    · by_cases h2 : ev.Aborted
      · simp [Process.Wait, h1, h2]
      · simp [Process.Wait, h1, h2, Event.AddHandler, Event.AddAbortHandler]
  · intro sig
    cases sig with
    | token processed => cases processed <;> simp [Process.WaitResume]
    | shutdown => simp [Process.WaitResume]
  · intro e
    by_cases h : e.state = EvState.pending <;> simp [Event.Abort, h]

/-- The awaited event as updated by one `Wait` call of process `pid` (the
event component of whichever outcome `Wait` produces). -/
def waitRegistered (pid : ℕ) (ev : Event) : Event :=
  match (Process.mk pid freshEvent).Wait ev with
  | WaitOutcome1.ret e _ => e
  | WaitOutcome1.exit e _ _ => e
  | WaitOutcome1.suspended e _ => e

/-- The awaited event after each process in `pids` has called `Wait` on
it in turn. -/
def waitAll (pids : List ℕ) (ev : Event) : Event :=
  pids.foldl (fun e pid => waitRegistered pid e) ev

/-- The channel operations performed, in order, when a list of fired
handlers is invoked one after the other by the settling context. -/
def handlerOps (hs : List Handler) : List SyncOp :=
  hs.flatMap Handler.ops

lemma waitRegistered_pending (pid : ℕ) (ev : Event)
    (h : ev.state = EvState.pending) :
    waitRegistered pid ev =
      Event.mk EvState.pending (ev.handlers ++ [Handler.onProcessed pid])
        (ev.abortHandlers ++ [Handler.onAbort pid]) := by
  simp [waitRegistered, Process.Wait, Event.Processed, Event.Aborted,
    Event.AddHandler, Event.AddAbortHandler, h]

lemma waitAll_pending (pids : List ℕ) (ev : Event)
    (h : ev.state = EvState.pending) :
    (waitAll pids ev).state = EvState.pending ∧
    (waitAll pids ev).handlers = ev.handlers ++ pids.map Handler.onProcessed ∧
    (waitAll pids ev).abortHandlers =
      ev.abortHandlers ++ pids.map Handler.onAbort := by
  induction pids generalizing ev with
  | nil => simp [waitAll, h]
  | cons p ps ih =>
      have hstep : waitAll (p :: ps) ev = waitAll ps (waitRegistered p ev) := rfl
      rw [hstep, waitRegistered_pending p ev h]
      obtain ⟨h1, h2, h3⟩ :=
        ih (Event.mk EvState.pending (ev.handlers ++ [Handler.onProcessed p])
          (ev.abortHandlers ++ [Handler.onAbort p])) rfl
      refine ⟨h1, ?_, ?_⟩
      · rw [h2]
        simp
      · rw [h3]
        simp

lemma handlerOps_count_resume (pids : List ℕ) (p : ℕ) :
    List.count (SyncOp.send p true) (handlerOps (pids.map Handler.onProcessed)) =
      List.count p pids := by
  induction pids with
  | nil => rfl
  | cons q ps ih =>
      simp only [List.map_cons, handlerOps, List.flatMap_cons, Handler.ops]
      rw [List.count_append]
      simp only [handlerOps] at ih
      rw [ih, List.count_cons, List.count_cons, List.count_nil]
      by_cases hq : q = p
      · subst hq
        simp
        omega
      · simp [hq, Ne.symm hq]

/-- Claim C1: on a pending awaitable every `Wait` call registers exactly
two one-shot handlers — the on-processed closure, whose invocation sends
the resume token `true` and then blocks receiving, and the on-abort
closure, which sends `false` and then blocks receiving — then yields and
suspends (`suspended` outcome).  When the awaitable settles processed,
the fired handler list holds exactly one on-processed closure per waiting
process, so exactly one resume token is sent to each waiter's channel,
for any number of concurrent waiters; and a suspended `select` receiving
the resume token makes `Wait` return normally (`ret`) with the completion
event untouched. -/
theorem wait_single_resume_per_waiter (pids : List ℕ) (ev : Event) (p : ℕ)
    (hev : ev.state = EvState.pending) (hh : ev.handlers = [])
    (hnd : pids.Nodup) (hp : p ∈ pids) :
    (∀ (pid : ℕ) (pe : Event),
      (Process.mk pid pe).Wait ev =
        WaitOutcome1.suspended
          (Event.mk EvState.pending (ev.handlers ++ [Handler.onProcessed pid])
            (ev.abortHandlers ++ [Handler.onAbort pid])) pe) ∧
    Handler.ops (Handler.onProcessed p) = [SyncOp.send p true, SyncOp.recv p] ∧
    Handler.ops (Handler.onAbort p) = [SyncOp.send p false, SyncOp.recv p] ∧
    ((waitAll pids ev).settleProcessed).1.state = EvState.processed ∧
    List.count (SyncOp.send p true)
      (handlerOps ((waitAll pids ev).settleProcessed).2) = 1 ∧
    (∀ proc : Process,
      proc.WaitResume (WakeSignal.token true) = WaitOutcome2.ret proc.ev) := by
  obtain ⟨hs, hhl, _⟩ := waitAll_pending pids ev hev
  refine ⟨?_, rfl, rfl, ?_, ?_, ?_⟩
  · intro pid pe
    simp [Process.Wait, Event.Processed, Event.Aborted, Event.AddHandler,
      Event.AddAbortHandler, hev]
  · simp [Event.settleProcessed, hs]
  · have h2 : ((waitAll pids ev).settleProcessed).2 = (waitAll pids ev).handlers := by
      simp [Event.settleProcessed, hs]
    rw [h2, hhl, hh, List.nil_append, handlerOps_count_resume]
    exact List.count_eq_one_of_mem hnd hp
  · intro proc
    simp [Process.WaitResume]

theorem wait_single_resume_per_waiter_witness :
    freshEvent.state = EvState.pending ∧
    freshEvent.handlers = [] ∧
    ([0, 1, 2] : List ℕ).Nodup ∧
    (1 : ℕ) ∈ ([0, 1, 2] : List ℕ) ∧
    List.count (SyncOp.send 1 true)
      (handlerOps ((waitAll [0, 1, 2] freshEvent).settleProcessed).2) = 1 :=
  ⟨by decide, by decide, by decide, by decide,
    (wait_single_resume_per_waiter [0, 1, 2] freshEvent 1 (by decide) (by decide)
      (by decide) (by decide)).2.2.2.2.1⟩

/-- The operations a suspending `Wait` performs on the process's handoff
channel (process.go lines 74-86): the yield `proc.sync <- true` handing
the baton to the driving context, then the receive in the `select`. -/
def procWaitOps (pid : ℕ) : List SyncOp :=
  [SyncOp.send pid true, SyncOp.recv pid]

/-- The process's next yield after `Wait` returns: the send its next
suspending `Wait` — or its final yield when the logic finishes —
performs on the same channel. -/
def procNextYield (pid : ℕ) : List SyncOp :=
  [SyncOp.send pid true]

/-- All operations the process side performs on its handoff channel over
one suspend/resume round-trip. -/
def procSessionOps (pid : ℕ) : List SyncOp :=
  procWaitOps pid ++ procNextYield pid

/-- Modelled from the spec: the operations the driving side performs over
the same round-trip — receive the process's yield ("hands control back to
whichever context advances the occurrence"), then, on settling the
occurrence, invoke the registered on-processed closure (process.go lines
56-62), which sends the resume token and blocks for the next yield. -/
def driverSessionOps (pid : ℕ) : List SyncOp :=
  SyncOp.recv pid :: Handler.ops (Handler.onProcessed pid)

/-- Claim C8: over one suspend/resume round-trip the process-side and
driver-side operation sequences on the handoff channel are exact duals:
their synchronous, unbuffered execution pairs them rendezvous by
rendezvous (`syncRun` succeeds, and the sequences have equal length, one
partner per operation), so at every instant at most one send/receive pair
is outstanding and each side only runs between its own rendezvous; in
particular at the instant the second rendezvous delivers the resume token
— the instant `Wait` resumes the process — the driver side's residual
operations begin with a blocking receive, so no driver logic executes
process-owned state concurrently with the resumed process. -/
theorem handoff_strict_alternation (pid : ℕ) :
    syncRun (procSessionOps pid) (driverSessionOps pid) = true ∧
    (procSessionOps pid).length = (driverSessionOps pid).length ∧
    (driverSessionOps pid).drop 2 = [SyncOp.recv pid] := by
  refine ⟨?_, rfl, rfl⟩
  simp [syncRun, procSessionOps, procWaitOps, procNextYield, driverSessionOps,
    Handler.ops]

/-- Delivery of the abort token `false` to process `pid`, as performed by
an invoked on-abort closure (process.go lines 65-71): the suspended
`select` receives it (`Process.WaitResume`), the process aborts its own
completion event and exits, and the abort handlers of that completion
event fire in order, each on-abort closure among them delivering `false`
to its own process, recursively.  `st` maps each process id to its
completion event; the first argument bounds the recursion depth (each hop
costs one handoff round-trip, so any finite chain is covered by a large
enough bound). -/
def deliverFalse : ℕ → ℕ → (ℕ → Event) → (ℕ → Event)
  | 0, _, st => st
  | fuel + 1, pid, st =>
      match Process.WaitResume (Process.mk pid (st pid)) (WakeSignal.token false) with
      | WaitOutcome2.abortExit pe fired =>
          fired.foldl
            (fun s h =>
              match h with
              | Handler.onAbort q => deliverFalse fuel q s
              | _ => s)
            (Function.update st pid pe)
      | _ => st

/-- The completion events of a wait chain P1, ..., Pn in which each Pi
(i ≥ 2) is being waited on by P(i-1): exactly the handler registration a
suspending `Wait` of P(i-1) performs on Pi's fresh completion event. -/
def chainInit (n : ℕ) : ℕ → Event := fun i =>
  if 2 ≤ i ∧ i ≤ n then
    Event.mk EvState.pending [Handler.onProcessed (i - 1)]
      [Handler.onAbort (i - 1)]
  else
    Event.mk EvState.pending [] []

/-- The leaf occurrence of the chain, being waited on by Pn. -/
def leafEvent (n : ℕ) : Event :=
  Event.mk EvState.pending [Handler.onProcessed n] [Handler.onAbort n]

/-- The completion events of the chain after the driver aborts the leaf
occurrence: the abort handlers the leaf's `Abort` fires are invoked in
order by the settling context, each on-abort closure delivering `false`
to its process. -/
def cascadeResult (n : ℕ) : ℕ → Event :=
  ((leafEvent n).Abort).2.foldl
    (fun s h =>
      match h with
      | Handler.onAbort q => deliverFalse n q s
      | _ => s)
    (chainInit n)

lemma deliverFalse_chain (pid : ℕ) :
    ∀ st : ℕ → Event,
      (∀ i, 1 ≤ i → i ≤ pid →
        (st i).state = EvState.pending ∧
        (st i).abortHandlers =
          (if 2 ≤ i then [Handler.onAbort (i - 1)] else [])) →
      (∀ i, 1 ≤ i → i ≤ pid →
        (deliverFalse pid pid st i).state = EvState.aborted) ∧
      (∀ i, pid < i → deliverFalse pid pid st i = st i) := by
  induction pid with
  | zero =>
      intro st _
      exact ⟨fun i h1 h0 => absurd (h1.trans h0) (by omega), fun i _ => rfl⟩
  | succ k ih =>
      intro st hst
      obtain ⟨hp, hah⟩ := hst (k + 1) (by omega) (by omega)
      have habort : (st (k + 1)).Abort =
          (Event.mk EvState.aborted [] [], (st (k + 1)).abortHandlers) := by
        simp [Event.Abort, hp]
      have hres : Process.WaitResume (Process.mk (k + 1) (st (k + 1)))
            (WakeSignal.token false) =
          WaitOutcome2.abortExit (Event.mk EvState.aborted [] [])
            (st (k + 1)).abortHandlers := by
        simp [Process.WaitResume, habort]
      have hunfold : deliverFalse (k + 1) (k + 1) st =
          ((st (k + 1)).abortHandlers).foldl
            (fun s h =>
              match h with
              | Handler.onAbort q => deliverFalse k q s
              | _ => s)
            (Function.update st (k + 1) (Event.mk EvState.aborted [] [])) := by
        rw [deliverFalse, hres]
      by_cases hk : 1 ≤ k
      · have hah2 : (st (k + 1)).abortHandlers = [Handler.onAbort k] := by
          rw [hah, if_pos (by omega : 2 ≤ k + 1)]
          simp
        have hr : deliverFalse (k + 1) (k + 1) st =
            deliverFalse k k
              (Function.update st (k + 1) (Event.mk EvState.aborted [] [])) := by
          rw [hunfold, hah2]
          rfl
        obtain ⟨ha, hb⟩ :=
          ih (Function.update st (k + 1) (Event.mk EvState.aborted [] []))
            (by
              intro i h1 h2
              rw [Function.update_noteq (by omega : i ≠ k + 1)]
              exact hst i h1 (by omega))
        refine ⟨?_, ?_⟩
        · intro i h1 h2
          rw [hr]
          by_cases hik : i ≤ k
          · exact ha i h1 hik
          · have hik2 : i = k + 1 := by omega
            rw [hb i (by omega), hik2, Function.update_same]
        · intro i hi
          rw [hr, hb i (by omega), Function.update_noteq (by omega : i ≠ k + 1)]
      · have hk0 : k = 0 := by omega
        subst hk0
        have hah2 : (st 1).abortHandlers = [] := by
          rw [hah]
          simp
        have hr : deliverFalse 1 1 st =
            Function.update st 1 (Event.mk EvState.aborted [] []) := by
          rw [hunfold, hah2]
          rfl
        refine ⟨?_, ?_⟩
        · intro i h1 h2
          have hik : i = 1 := by omega
          rw [hr, hik, Function.update_same]
        · intro i hi
          rw [hr, Function.update_noteq (by omega : i ≠ 1)]

/-- Claim C5: abort propagates transitively through wait chains.  For a
chain P1, ..., Pn (n ≥ 3) in which each P(i-1) is suspended waiting on
Pi's completion event and Pn is suspended waiting on a leaf occurrence —
exactly the configurations a suspending `Wait` produces — aborting the
leaf cascades: every process's completion event in the chain becomes
aborted, whatever the depth n. -/
theorem wait_cascading_abort (n : ℕ) (_hn : 3 ≤ n) :
    (∀ i, 2 ≤ i → i ≤ n →
      (Process.mk (i - 1) freshEvent).Wait freshEvent =
        WaitOutcome1.suspended (chainInit n i) freshEvent) ∧
    (Process.mk n freshEvent).Wait freshEvent =
      WaitOutcome1.suspended (leafEvent n) freshEvent ∧
    (((leafEvent n).Abort).1).state = EvState.aborted ∧
    (∀ i, 1 ≤ i → i ≤ n → (cascadeResult n i).state = EvState.aborted) := by
  refine ⟨?_, ?_, ?_, ?_⟩
  · intro i h2 hin
    simp [Process.Wait, Event.Processed, Event.Aborted, Event.AddHandler,
      Event.AddAbortHandler, freshEvent, chainInit, h2, hin]
  · simp [Process.Wait, Event.Processed, Event.Aborted, Event.AddHandler,
      Event.AddAbortHandler, freshEvent, leafEvent]
  · simp [Event.Abort, leafEvent]
  · have hcasc : cascadeResult n = deliverFalse n n (chainInit n) := by
      simp [cascadeResult, Event.Abort, leafEvent]
    have hmain :=
      deliverFalse_chain n (chainInit n)
        (by
          intro i h1 h2
          constructor
          · by_cases hc : 2 ≤ i ∧ i ≤ n <;> simp [chainInit, hc]
          · by_cases hc : 2 ≤ i
            · rw [chainInit, if_pos ⟨hc, h2⟩, if_pos hc]
            · rw [chainInit, if_neg (by omega), if_neg hc])
    intro i h1 h2
    rw [hcasc]
    exact hmain.1 i h1 h2

theorem wait_cascading_abort_witness :
    3 ≤ 3 ∧
    (cascadeResult 3 1).state = EvState.aborted ∧
    (cascadeResult 3 2).state = EvState.aborted ∧
    (cascadeResult 3 3).state = EvState.aborted :=
  ⟨by decide,
    (wait_cascading_abort 3 (by decide)).2.2.2 1 (by decide) (by decide),
    (wait_cascading_abort 3 (by decide)).2.2.2 2 (by decide) (by decide),
    (wait_cascading_abort 3 (by decide)).2.2.2 3 (by decide) (by decide)⟩

/-- Claim C7 counterexample: process 0 suspends in `Wait` on a fresh
pending event and is then killed by the shutdown signal (`killExit` — it
performs no further operation on its handoff channel).  The handlers its
`Wait` registered are still on the event; when the event is later settled
processed, the fired on-processed closure's first operation is a send on
process 0's channel, and the synchronous run of the closure's operations
against the empty sequence of operations the dead process will still
perform does not complete: the invocation blocks the settling context
instead of being a no-op. -/
theorem shutdown_stale_handler_blocks_cex :
    (Process.mk 0 freshEvent).Wait freshEvent =
      WaitOutcome1.suspended
        (Event.mk EvState.pending [Handler.onProcessed 0] [Handler.onAbort 0])
        freshEvent ∧
    (Process.mk 0 freshEvent).WaitResume WakeSignal.shutdown =
      WaitOutcome2.killExit freshEvent ∧
    ((Event.mk EvState.pending [Handler.onProcessed 0]
        [Handler.onAbort 0]).settleProcessed).2 = [Handler.onProcessed 0] ∧
    syncRun (Handler.ops (Handler.onProcessed 0)) [] = false := by
  decide

/-- Claim C7 amended: after a process is shutdown-killed while suspended,
the two handlers its `Wait` registered remain registered on the
awaitable, and their later invocation is not a harmless no-op: each
closure's first operation is a send on the dead process's handoff channel
that can never rendezvous (the killed process performs no further channel
operations), so the synchronous run fails to complete and the invocation
would block the settling context.  The stale handlers are safely
ignorable only as long as the awaitable is never settled after
shutdown. -/
theorem shutdown_stale_handler_blocks (proc : Process) (ev : Event)
    (hev : ev.state = EvState.pending) :
    proc.Wait ev =
      WaitOutcome1.suspended
        (Event.mk EvState.pending (ev.handlers ++ [Handler.onProcessed proc.pid])
          (ev.abortHandlers ++ [Handler.onAbort proc.pid])) proc.ev ∧
    proc.WaitResume WakeSignal.shutdown = WaitOutcome2.killExit proc.ev ∧
    syncRun (Handler.ops (Handler.onProcessed proc.pid)) [] = false ∧
    syncRun (Handler.ops (Handler.onAbort proc.pid)) [] = false := by
  refine ⟨?_, rfl, rfl, rfl⟩
  simp [Process.Wait, Event.Processed, Event.Aborted, Event.AddHandler,
    Event.AddAbortHandler, hev]

theorem shutdown_stale_handler_blocks_witness :
    freshEvent.state = EvState.pending ∧
    ((Process.mk 1 freshEvent).Wait freshEvent =
        WaitOutcome1.suspended
          (Event.mk EvState.pending
            (freshEvent.handlers ++ [Handler.onProcessed 1])
            (freshEvent.abortHandlers ++ [Handler.onAbort 1])) freshEvent ∧
      (Process.mk 1 freshEvent).WaitResume WakeSignal.shutdown =
        WaitOutcome2.killExit freshEvent ∧
      syncRun (Handler.ops (Handler.onProcessed 1)) [] = false ∧
      syncRun (Handler.ops (Handler.onAbort 1)) [] = false) :=
  ⟨by decide,
    shutdown_stale_handler_blocks (Process.mk 1 freshEvent) freshEvent (by decide)⟩

end Simgo
